import Mathlib

/-!
Verification development for the pyfiber analysis module
(src/fiberphotopy/analysis.py).

The module is shallowly embedded over the rationals: numpy float arrays
become lists of rationals, the `RatSession` / `Analysis` objects become
Lean structures, and the methods `_sample`, `analyze_perievent`,
`update_window` and `smooth` become Lean functions.  External
collaborators that are not part of this repository (the `behavioral_data`
and `fiber_data` modules, and the scipy / numpy / pandas routines the code
calls) are modelled from their documented behavior; every such modelling
step is flagged in the corresponding doc comment.
-/

namespace PF

/-- One row of a recording array, as produced by `fiber_data.FiberData.norm`:
a `(time, signal, control)` triple (columns 0, 1, 2 of the numpy array). -/
abbrev Row : Type := ℚ × ℚ × ℚ

/-- Arithmetic mean of a list, `l.sum / l.length` (numpy `ndarray.mean`;
the empty list yields `0/0 = 0` where numpy would produce NaN). -/
def mean {K : Type} [LinearOrderedField K] (l : List K) : K :=
  l.sum / l.length

/-- Population variance of a list (numpy default `ddof = 0`):
the mean of squared deviations from the mean. -/
def variance {K : Type} [LinearOrderedField K] (l : List K) : K :=
  mean (l.map (fun x => (x - mean l) ^ 2))

/-- Insert into a sorted list, keeping order (helper for `sortQ`). -/
def insertSorted (a : ℚ) : List ℚ → List ℚ
  | [] => [a]
  | b :: r => if a ≤ b then a :: b :: r else b :: insertSorted a r

/-- Insertion sort for rational lists (only used to evaluate medians,
mirroring the sort inside numpy median routines). -/
def sortQ : List ℚ → List ℚ
  | [] => []
  | a :: r => insertSorted a (sortQ r)

/-- numpy `median`: middle element of the sorted list for odd length,
average of the two middle elements for even length
(`0` for the empty list, where numpy would produce NaN). -/
def median (l : List ℚ) : ℚ :=
  let s := sortQ l
  let n := l.length
  if n = 0 then 0
  else if n % 2 = 1 then s.getD (n / 2) 0
  else (s.getD (n / 2 - 1) 0 + s.getD (n / 2) 0) / 2

/-- scipy `stats.median_abs_deviation` with its default `scale = 1`:
the median of absolute deviations from the median. -/
def mad (l : List ℚ) : ℚ :=
  median (l.map (fun v => |v - median l|))

/-- numpy `diff`: consecutive differences `l[i+1] - l[i]`. -/
def diffs (l : List ℚ) : List ℚ :=
  List.zipWith (fun a b => a - b) (l.drop 1) l

/-- Python slice `l[:i]` for a possibly negative bound `i`
(a negative bound counts from the end of the list). -/
def pySliceTo {α : Type} (l : List α) (i : ℤ) : List α :=
  if 0 ≤ i then l.take i.toNat else l.take (l.length - (-i).toNat)

/-- Python slice `l[i:]` for a possibly negative bound `i`
(a negative bound counts from the end of the list). -/
def pySliceFrom {α : Type} (l : List α) (i : ℤ) : List α :=
  if 0 ≤ i then l.drop i.toNat else l.drop (l.length - (-i).toNat)

/-- Index and value of the first element minimising `|t - x|`, mirroring
`np.where(abs(a - x) == min(abs(a - x)))[0][0]` in `RatSession._sample`
(analysis.py lines 37-38): ties go to the earliest index. -/
def argminAbsF (x : ℚ) : List ℚ → Option (ℕ × ℚ)
  | [] => none
  | t :: r =>
    match argminAbsF x r with
    | none => some (0, |t - x|)
    | some (i, v) => if |t - x| ≤ v then some (0, |t - x|) else some (i + 1, v)

/-- Index and value of the last element minimising `|t - x|`, mirroring
`np.where(abs(a - x) == min(abs(a - x)))[0][-1]` in `RatSession._sample`
(analysis.py line 39): ties go to the latest index. -/
def argminAbsL (x : ℚ) : List ℚ → Option (ℕ × ℚ)
  | [] => none
  | t :: r =>
    match argminAbsL x r with
    | none => some (0, |t - x|)
    | some (i, v) => if |t - x| < v then some (0, |t - x|) else some (i + 1, v)

/-- First index of `ts` minimising the distance to `x` (0 on the empty list,
where the numpy code would raise). -/
def locateF (ts : List ℚ) (x : ℚ) : ℕ :=
  match argminAbsF x ts with
  | some p => p.1
  | none => 0

/-- Last index of `ts` minimising the distance to `x` (0 on the empty list,
where the numpy code would raise). -/
def locateL (ts : List ℚ) (x : ℚ) : ℕ :=
  match argminAbsL x ts with
  | some p => p.1
  | none => 0

/-- `RatSession._sample` (analysis.py lines 33-40): nearest-index lookup of
`event_time - window[0]`, `event_time` and `event_time + window[1]`,
taking the first matching index for the window start and the event and the
last matching index for the window end. -/
def sample (time_array : List ℚ) (event_time : ℚ) (window : ℚ × ℚ) : ℕ × ℕ × ℕ :=
  (locateF time_array (event_time - window.1),
   locateF time_array event_time,
   locateL time_array (event_time + window.2))

/-- One composite step of scipy `_basic_simpson` over a non-uniform grid:
integrates interval pairs `(x0, x1, x2)` with the standard three-point rule
and recurses two samples further. -/
def basicSimpson : List ℚ → List ℚ → ℚ
  | y0 :: y1 :: y2 :: ys, x0 :: x1 :: x2 :: xs =>
    let h1 := x1 - x0
    let h2 := x2 - x1
    (h1 + h2) / 6 * ((2 - h2 / h1) * y0 + (h1 + h2) ^ 2 / (h1 * h2) * y1
        + (2 - h1 / h2) * y2)
      + basicSimpson (y2 :: ys) (x2 :: xs)
  | _, _ => 0

/-- scipy `integrate.simpson(y, x)` for equal-length `y`, `x`: Simpson's
composite rule for an odd number of samples; for an even number of samples
the historic default `even = 'avg'` averages the two ways of attaching a
trapezoidal end correction (for exactly two samples every scipy version
degrades to the plain trapezoid); one sample yields `0.0`.  scipy raises
`IndexError` on an empty integrand: that raise is modelled explicitly by
`aucRaises` inside `analyze_perievent`, which never reaches `simpson` on an
empty list, so the `0` this embedding returns for `n = 0` stands for an
unreachable branch. -/
def simpson (y x : List ℚ) : ℚ :=
  let n := y.length
  if n ≤ 1 then 0
  else if n % 2 = 1 then basicSimpson y x
  else
    let firstTrap := (x.getD 1 0 - x.getD 0 0) * (y.getD 0 0 + y.getD 1 0) / 2
    let lastTrap := (x.getD (n - 1) 0 - x.getD (n - 2) 0)
        * (y.getD (n - 1) 0 + y.getD (n - 2) 0) / 2
    ((basicSimpson (y.drop 1) (x.drop 1) + firstTrap)
      + (basicSimpson (y.take (n - 1)) (x.take (n - 1)) + lastTrap)) / 2

/-- The z-score transform of analysis.py line 86,
`(signal - preevent.mean()) / preevent.std()`, with the standard deviation
passed as a parameter `σ`: numpy `std` is the non-negative square root of
the population `variance`, which is irrational in general, so theorems
characterise `σ` by `0 ≤ σ` and `σ ^ 2 = variance pre` instead of fixing a
closed form. -/
def zscoresWith {K : Type} [LinearOrderedField K] (sig pre : List K) (σ : K) : List K :=
  sig.map (fun v => (v - mean pre) / σ)

/-- pandas `Series(l).rolling(window=w).mean().iloc[w-1:]` as used by
`Analysis.smooth` (analysis.py lines 190-193): trailing-window means, with
the first `w - 1` NaN entries dropped. -/
def rollingMean (l : List ℚ) (w : ℕ) : List ℚ :=
  (List.range (l.length + 1 - w)).map (fun i => mean ((l.drop i).take w))

/-- `Analysis.smooth` (analysis.py lines 169-194) with `add_time = True` and
the window already resolved to a sample count: the Savitzky-Golay branch
forces the window odd and pairs `self.time` with the filtered data; the
rolling branch pairs the rolling mean of the time axis with the rolling
mean of the data.  The scipy filter itself is an external collaborator and
is passed in as `sg`; theorems assume only its documented contract that the
output length equals the input length.  A method string matching neither
branch makes the Python code fail on an undefined local (modelled `none`). -/
def smooth (sg : List ℚ → ℕ → ℕ → List ℚ) (time data : List ℚ)
    (method : String) (window : ℕ) (polyorder : ℕ) : Option (List (ℚ × ℚ)) :=
  if method = "savgol" then
    let w := if window % 2 = 0 then window + 1 else window
    some (time.zip (sg data w polyorder))
  else if method = "rolling" then
    some ((rollingMean time window).zip (rollingMean data window))
  else
    none

/-- Modelled from the spec: the `fiber_data.FiberData` collaborator (not part
of src/).  `filepath` and the per-recording rows are stored data;
`normFn rec method` stands for `FiberData.norm(rec=..., method=...)`,
producing the full-recording `(time, signal, control)` array for a method
selector, and is kept abstract as a function field. -/
structure FiberData where
  filepath : String
  recordings : List (List Row)
  normFn : ℕ → String → List Row

/-- Modelled from the spec: `FiberData._find_rec(t)` returns the indices of
the recordings whose own time span contains `t` (empty when no recording
contains the timestamp, which is what makes `[0]` raise in the caller). -/
def FiberData.findRec (f : FiberData) (t : ℚ) : List ℕ :=
  (List.range f.recordings.length).filter (fun i =>
    match f.recordings.getD i [] with
    | [] => false
    | r :: rs => decide (r.1 ≤ t ∧ t ≤ (rs.getLastD r).1))

/-- Modelled from the spec: the `behavioral_data.BehavioralData` collaborator
(not part of src/).  `eventsFn w` and `intervalsFn w` stand for
`behavior.events(recorded=True, window=w)` and
`behavior.intervals(recorded=True, window=w)`. -/
structure BehavioralData where
  filepath : String
  eventsFn : ℚ × ℚ → List (String × List ℚ)
  intervalsFn : ℚ × ℚ → List (String × List (ℚ × ℚ))

/-- The result object built by `RatSession.analyze_perievent` (the dynamic
attribute bag of the Python `Analysis` class, as a fixed record).  The
z-score attributes of lines 86-88 and their derived scalars involve
`preevent.std()`, a square root that leaves the rationals; they are treated
through `zscoresWith` instead of being stored here. -/
structure Analysis where
  event_time : ℚ
  fiberfile : String
  behaviorfile : String
  normalisation : String
  rec_number : ℕ
  window : ℚ × ℚ
  recordingdata : List Row
  rawdata : List Row
  data : List Row
  raw_signal : List ℚ
  raw_control : List ℚ
  signal : List ℚ
  time : List ℚ
  sampling_rate : ℚ
  postevent : List ℚ
  pre_raw_sig : List ℚ
  post_raw_sig : List ℚ
  post_raw_ctrl : List ℚ
  post_time : List ℚ
  preevent : List ℚ
  pre_time : List ℚ
  rob_zscores : List ℚ
  pre_Rzscores : List ℚ
  post_Rzscores : List ℚ
  preAVG_RZ : ℚ
  postAVG_RZ : ℚ
  pre_raw_AUC : ℚ
  post_raw_AUC : ℚ
  preAUC : ℚ
  postAUC : ℚ
  preRZ_AUC : ℚ
  postRZ_AUC : ℚ
deriving DecidableEq

/-- A single session: behavior and fiber sources, the mutable default
window, the default normalisation inherited from `FiberPhotopy` (external
superclass, modelled from the spec), the analysis cache `analyses`, and the
two derived mappings computed in `__init__` (analysis.py lines 29-31). -/
structure RatSession where
  rat_ID : String
  behavior : BehavioralData
  fiber : FiberData
  default_window : ℚ × ℚ
  default_norm : String
  analyses : List (String × Analysis)
  analyzable_events : List (String × List ℚ)
  recorded_intervals : List (String × List (ℚ × ℚ))

/-- Outcome of one `analyze_perievent` call: a result object, the legacy
failure mode of printing a message and returning `None` (analysis.py lines
58-59 and 64-65), or an uncaught exception escaping the call (the
`IndexError` that `integrate.simpson` raises on an empty segment at lines
96-103). -/
inductive Outcome where
  | ok : Analysis → Outcome
  | printedNone : String → Outcome
  | raised : Outcome
deriving DecidableEq

/-- The result object of an outcome, when there is one. -/
def outRes : Outcome → Option Analysis
  | Outcome.ok r => some r
  | Outcome.printedNone _ => none
  | Outcome.raised => none

/-- The message printed by the invalid-normalisation branch
(analysis.py line 58, quotes elided). -/
def invalidNormMsg : String :=
  "Invalid choice for signal normalisation !"

/-- The message printed when no recording contains the timestamp
(analysis.py line 64). -/
def noRecMsg : String :=
  "No fiber recording at this timestamp"

/-- Normalisation-selector resolution of analysis.py lines 52-59:
the string `default` short-circuits to the session default without
validation, otherwise the lookup `{'F': ..., 'Z': ...}[norm]` succeeds
exactly for `F` and `Z` and raises `KeyError` (here `none`) for everything
else - including `raw`. -/
def normResolve (s : RatSession) (norm : String) : Option String :=
  if norm = "default" then some s.default_norm
  else if norm = "F" then some "delta F/F"
  else if norm = "Z" then some "Z-scores"
  else none

/-- Python `dict.update({k: v})`: replace the value at an existing key,
otherwise append the binding. -/
def dictUpdate (l : List (String × Analysis)) (k : String) (v : Analysis) :
    List (String × Analysis) :=
  if l.any (fun p => p.1 = k) then
    l.map (fun p => if p.1 = k then (k, v) else p)
  else l ++ [(k, v)]

/-- Body of `RatSession.analyze_perievent` after both validations have
passed (analysis.py lines 70-103): slice the window, split every
representation, and fill the result object.  The split offset used for
every pre/post sub-array is `end_idx - event_idx`, exactly as in lines
79-91 of the source. -/
def analyzeCore (s : RatSession) (event_time : ℚ) (w : ℚ × ℚ)
    (normalisation : String) (norm : String) (rec_number : ℕ) : Analysis :=
  let recordingdata := s.fiber.normFn rec_number norm
  let rawdata := s.fiber.normFn rec_number ("raw")
  let idxs := sample (recordingdata.map (fun r => r.1)) event_time w
  let start_idx := idxs.1
  let event_idx := idxs.2.1
  let end_idx := idxs.2.2
  let data := (recordingdata.drop start_idx).take (end_idx + 1 - start_idx)
  let rawslice := (rawdata.drop start_idx).take (end_idx + 1 - start_idx)
  let raw_signal := rawslice.map (fun r => r.2.1)
  let raw_control := rawslice.map (fun r => r.2.2)
  let signal := data.map (fun r => r.2.1)
  let time := data.map (fun r => r.1)
  let k : ℤ := (end_idx : ℤ) - (event_idx : ℤ)
  let postevent := (pySliceFrom data k).map (fun r => r.2.1)
  let pre_raw_sig := pySliceTo raw_signal k
  let post_raw_sig := pySliceFrom raw_signal k
  let post_raw_ctrl := pySliceFrom raw_control k
  let post_time := (pySliceFrom data k).map (fun r => r.1)
  let preevent := (pySliceTo data k).map (fun r => r.2.1)
  let pre_time := (pySliceTo data k).map (fun r => r.1)
  let rob_zscores := signal.map (fun v => (v - median preevent) / mad preevent)
  let pre_Rzscores := pySliceTo rob_zscores k
  let post_Rzscores := pySliceFrom rob_zscores k
  { event_time := event_time
    fiberfile := s.fiber.filepath
    behaviorfile := s.behavior.filepath
    normalisation := normalisation
    rec_number := rec_number
    window := w
    recordingdata := recordingdata
    rawdata := rawdata
    data := data
    raw_signal := raw_signal
    raw_control := raw_control
    signal := signal
    time := time
    sampling_rate := 1 / mean (diffs time)
    postevent := postevent
    pre_raw_sig := pre_raw_sig
    post_raw_sig := post_raw_sig
    post_raw_ctrl := post_raw_ctrl
    post_time := post_time
    preevent := preevent
    pre_time := pre_time
    rob_zscores := rob_zscores
    pre_Rzscores := pre_Rzscores
    post_Rzscores := post_Rzscores
    preAVG_RZ := mean pre_Rzscores
    postAVG_RZ := mean post_Rzscores
    pre_raw_AUC := simpson pre_raw_sig pre_time
    post_raw_AUC := simpson post_raw_sig post_time
    preAUC := simpson preevent pre_time
    postAUC := simpson postevent post_time
    preRZ_AUC := simpson pre_Rzscores pre_time
    postRZ_AUC := simpson post_Rzscores post_time }

/-- The condition under which the eight `integrate.simpson` calls of
analysis.py lines 96-103 raise `IndexError`: scipy indexes `x[-1]` and
`y[-1]` even for an empty integrand, so the first call whose segment array
is empty raises, the exception is uncaught, and the Python call crashes.
(The `pre_zscores`/`post_zscores` arguments of the omitted z-score AUCs on
lines 100-101 are empty exactly when `preevent`/`postevent` are, so the
disjunction covers those calls too.) -/
def aucRaises (res : Analysis) : Bool :=
  res.pre_raw_sig.isEmpty || res.post_raw_sig.isEmpty ||
  res.preevent.isEmpty || res.postevent.isEmpty ||
  res.pre_Rzscores.isEmpty || res.post_Rzscores.isEmpty

/-- `RatSession.analyze_perievent` (analysis.py lines 43-105).  The call
returns the outcome together with the resulting session, so that the effect
on the analysis cache is part of the embedding: both printed-`None` failure
branches return the session unchanged; when an AUC segment is empty the
uncaught `IndexError` of `integrate.simpson` aborts the call before the
cache write on line 104 (outcome `raised`, session unchanged, the
partially-built result object discarded); otherwise the success branch
stores the result under the key built on line 104.  `window = none`
encodes the `'default'` argument. -/
def analyze_perievent (s : RatSession) (event_time : ℚ)
    (window : Option (ℚ × ℚ)) (norm : String) : Outcome × RatSession :=
  match normResolve s norm with
  | none => (Outcome.printedNone invalidNormMsg, s)
  | some normalisation =>
    match s.fiber.findRec event_time with
    | [] => (Outcome.printedNone noRecMsg, s)
    | rec_number :: _ =>
      let w := window.getD s.default_window
      let res := analyzeCore s event_time w normalisation norm rec_number
      if aucRaises res then (Outcome.raised, s)
      else
        let key := "rec" ++ toString rec_number ++ "_" ++ toString event_time
            ++ "_" ++ toString w
        (Outcome.ok res, { s with analyses := dictUpdate s.analyses key res })

/-- `RatSession.update_window` (analysis.py lines 107-111): store the new
default window and recompute the two derived mappings. -/
def update_window (s : RatSession) (new_window : ℚ × ℚ) : RatSession :=
  { s with
    default_window := new_window
    analyzable_events := s.behavior.eventsFn new_window
    recorded_intervals := s.behavior.intervalsFn new_window }

/-- Concrete test recording: rows `(t, 2 t, 1)` for `t = 0, ..., 10`. -/
def sessRows : List Row :=
  (List.range 11).map (fun i => ((i : ℚ), 2 * (i : ℚ), 1))

/-- Concrete fiber source holding `sessRows` as its single recording and
serving it for every normalisation method. -/
def testFiber : FiberData :=
  { filepath := "fiber.csv"
    recordings := [sessRows]
    normFn := fun _ _ => sessRows }

/-- Concrete behavior source with no events or intervals. -/
def testBehavior : BehavioralData :=
  { filepath := "behavior.dat"
    eventsFn := fun _ => []
    intervalsFn := fun _ => [] }

/-- Concrete session over `testFiber` and `testBehavior`, with an empty
analysis cache. -/
def testSession : RatSession :=
  { rat_ID := "rat1"
    behavior := testBehavior
    fiber := testFiber
    default_window := (1, 1)
    default_norm := "delta F/F"
    analyses := []
    analyzable_events := []
    recorded_intervals := [] }

/-! ### Sampler lemmas -/

theorem argminAbsF_spec (x : ℚ) (ts : List ℚ) (hne : ts ≠ []) :
    ∃ i v, argminAbsF x ts = some (i, v) ∧ i < ts.length ∧
      v = |ts.getD i 0 - x| ∧
      (∀ j, j < ts.length → v ≤ |ts.getD j 0 - x|) ∧
      (∀ j, j < i → v < |ts.getD j 0 - x|) := by
  induction ts with
  | nil => exact absurd rfl hne
  | cons t r ih =>
    by_cases hr : r = []
    · subst hr
      refine ⟨0, |t - x|, rfl, by simp, by simp, ?_, ?_⟩
      · intro j hj
        have hj0 : j = 0 := by simpa using hj
        subst hj0; simp
      · intro j hj; exact absurd hj (Nat.not_lt_zero j)
    · obtain ⟨i, v, heq, hlt, hval, hmin, hfirst⟩ := ih hr
      by_cases hc : |t - x| ≤ v
      · refine ⟨0, |t - x|, ?_, by simp, by simp, ?_, ?_⟩
        · simp [argminAbsF, heq, hc]
        · intro j hj
          cases j with
          | zero => simp
          | succ m =>
            simp only [List.getD_cons_succ]
            exact le_trans hc (hmin m (by simpa using hj))
        · intro j hj; exact absurd hj (Nat.not_lt_zero j)
      · push_neg at hc
        refine ⟨i + 1, v, ?_, ?_, ?_, ?_, ?_⟩
        · simp [argminAbsF, heq, not_le.mpr hc]
        · simpa using Nat.succ_lt_succ hlt
        · simpa using hval
        · intro j hj
          cases j with
          | zero => simpa using hc.le
          | succ m => simpa using hmin m (by simpa using hj)
        · intro j hj
          cases j with
          | zero => simpa using hc
          | succ m => simpa using hfirst m (by omega)

theorem argminAbsL_spec (x : ℚ) (ts : List ℚ) (hne : ts ≠ []) :
    ∃ i v, argminAbsL x ts = some (i, v) ∧ i < ts.length ∧
      v = |ts.getD i 0 - x| ∧
      (∀ j, j < ts.length → v ≤ |ts.getD j 0 - x|) ∧
      (∀ j, i < j → j < ts.length → v < |ts.getD j 0 - x|) := by
  induction ts with
  | nil => exact absurd rfl hne
  | cons t r ih =>
    by_cases hr : r = []
    · subst hr
      refine ⟨0, |t - x|, rfl, by simp, by simp, ?_, ?_⟩
      · intro j hj
        have hj0 : j = 0 := by simpa using hj
        subst hj0; simp
      · intro j h0j hj
        have hj0 : j = 0 := by simpa using hj
        omega
    · obtain ⟨i, v, heq, hlt, hval, hmin, hlast⟩ := ih hr
      by_cases hc : |t - x| < v
      · refine ⟨0, |t - x|, ?_, by simp, by simp, ?_, ?_⟩
        · simp [argminAbsL, heq, hc]
        · intro j hj
          cases j with
          | zero => simp
          | succ m =>
            simp only [List.getD_cons_succ]
            exact le_trans hc.le (hmin m (by simpa using hj))
        · intro j h0j hj
          cases j with
          | zero => omega
          | succ m =>
            simp only [List.getD_cons_succ]
            exact lt_of_lt_of_le hc (hmin m (by simpa using hj))
      · push_neg at hc
        refine ⟨i + 1, v, ?_, ?_, ?_, ?_, ?_⟩
        · simp [argminAbsL, heq, not_lt.mpr hc]
        · simpa using Nat.succ_lt_succ hlt
        · simpa using hval
        · intro j hj
          cases j with
          | zero => simpa using hc
          | succ m => simpa using hmin m (by simpa using hj)
        · intro j hij hj
          cases j with
          | zero => omega
          | succ m => simpa using hlast m (by omega) (by simpa using hj)

theorem locateF_spec (ts : List ℚ) (x : ℚ) (hne : ts ≠ []) :
    locateF ts x < ts.length ∧
      (∀ j, j < ts.length → |ts.getD (locateF ts x) 0 - x| ≤ |ts.getD j 0 - x|) ∧
      (∀ j, j < locateF ts x → |ts.getD (locateF ts x) 0 - x| < |ts.getD j 0 - x|) := by
  obtain ⟨i, v, heq, hlt, hval, hmin, hfirst⟩ := argminAbsF_spec x ts hne
  have hl : locateF ts x = i := by simp [locateF, heq]
  rw [hl]
  subst hval
  exact ⟨hlt, hmin, hfirst⟩

theorem locateL_spec (ts : List ℚ) (x : ℚ) (hne : ts ≠ []) :
    locateL ts x < ts.length ∧
      (∀ j, j < ts.length → |ts.getD (locateL ts x) 0 - x| ≤ |ts.getD j 0 - x|) ∧
      (∀ j, locateL ts x < j → j < ts.length →
        |ts.getD (locateL ts x) 0 - x| < |ts.getD j 0 - x|) := by
  obtain ⟨i, v, heq, hlt, hval, hmin, hlast⟩ := argminAbsL_spec x ts hne
  have hl : locateL ts x = i := by simp [locateL, heq]
  rw [hl]
  subst hval
  exact ⟨hlt, hmin, hlast⟩

theorem locateF_mono (ts : List ℚ) (hs : List.Pairwise (· < ·) ts) (hne : ts ≠ [])
    {x y : ℚ} (hxy : x ≤ y) : locateF ts x ≤ locateF ts y := by
  by_contra hcon
  push_neg at hcon
  obtain ⟨hltx, hminx, hfirstx⟩ := locateF_spec ts x hne
  obtain ⟨hlty, hminy, _⟩ := locateF_spec ts y hne
  have hpq : ts.getD (locateF ts y) 0 < ts.getD (locateF ts x) 0 := by
    have h := List.pairwise_iff_getElem.mp hs (locateF ts y) (locateF ts x) hlty hltx hcon
    rwa [← List.getD_eq_getElem ts 0 hlty, ← List.getD_eq_getElem ts 0 hltx] at h
  have h1 := hfirstx (locateF ts y) hcon
  have h2 := hminy (locateF ts x) hltx
  set p := ts.getD (locateF ts y) 0
  set q := ts.getD (locateF ts x) 0
  have h1' : (q - x) * (q - x) < (p - x) * (p - x) := by
    have h := mul_self_lt_mul_self (abs_nonneg _) h1
    rwa [abs_mul_abs_self, abs_mul_abs_self] at h
  have h2' : (p - y) * (p - y) ≤ (q - y) * (q - y) := by
    have h := mul_self_le_mul_self (abs_nonneg _) h2
    rwa [abs_mul_abs_self, abs_mul_abs_self] at h
  nlinarith [mul_nonneg (sub_nonneg.mpr hxy) (sub_pos.mpr hpq).le]

theorem locateF_le_locateL (ts : List ℚ) (hs : List.Pairwise (· < ·) ts) (hne : ts ≠ [])
    {x y : ℚ} (hxy : x ≤ y) : locateF ts x ≤ locateL ts y := by
  by_contra hcon
  push_neg at hcon
  obtain ⟨hltx, hminx, _⟩ := locateF_spec ts x hne
  obtain ⟨hlty, _, hlasty⟩ := locateL_spec ts y hne
  have hpq : ts.getD (locateL ts y) 0 < ts.getD (locateF ts x) 0 := by
    have h := List.pairwise_iff_getElem.mp hs (locateL ts y) (locateF ts x) hlty hltx hcon
    rwa [← List.getD_eq_getElem ts 0 hlty, ← List.getD_eq_getElem ts 0 hltx] at h
  have h1 := hminx (locateL ts y) hlty
  have h2 := hlasty (locateF ts x) hcon hltx
  set p := ts.getD (locateL ts y) 0
  set q := ts.getD (locateF ts x) 0
  have h1' : (q - x) * (q - x) ≤ (p - x) * (p - x) := by
    have h := mul_self_le_mul_self (abs_nonneg _) h1
    rwa [abs_mul_abs_self, abs_mul_abs_self] at h
  have h2' : (p - y) * (p - y) < (q - y) * (q - y) := by
    have h := mul_self_lt_mul_self (abs_nonneg _) h2
    rwa [abs_mul_abs_self, abs_mul_abs_self] at h
  nlinarith [mul_nonneg (sub_nonneg.mpr hxy) (sub_pos.mpr hpq).le]

/-- Claim C2: for every non-empty time array and target time, `_sample`
returns indices of minimum absolute time difference, and among tied indices
it picks the first occurrence for the window-start boundary (and the event)
and the last occurrence for the window-end boundary.  (On an empty array
the numpy code raises, so non-emptiness is assumed.) -/
theorem C2_sampler_nearest_tiebreak (ts : List ℚ) (event_time : ℚ) (w : ℚ × ℚ)
    (hne : ts ≠ []) :
    ((sample ts event_time w).1 < ts.length ∧
      (∀ j, j < ts.length →
        |ts.getD (sample ts event_time w).1 0 - (event_time - w.1)| ≤
          |ts.getD j 0 - (event_time - w.1)|) ∧
      (∀ j, j < (sample ts event_time w).1 →
        |ts.getD (sample ts event_time w).1 0 - (event_time - w.1)| <
          |ts.getD j 0 - (event_time - w.1)|)) ∧
    ((sample ts event_time w).2.1 < ts.length ∧
      (∀ j, j < ts.length →
        |ts.getD (sample ts event_time w).2.1 0 - event_time| ≤
          |ts.getD j 0 - event_time|)) ∧
    ((sample ts event_time w).2.2 < ts.length ∧
      (∀ j, j < ts.length →
        |ts.getD (sample ts event_time w).2.2 0 - (event_time + w.2)| ≤
          |ts.getD j 0 - (event_time + w.2)|) ∧
      (∀ j, (sample ts event_time w).2.2 < j → j < ts.length →
        |ts.getD (sample ts event_time w).2.2 0 - (event_time + w.2)| <
          |ts.getD j 0 - (event_time + w.2)|)) := by
  refine ⟨locateF_spec ts (event_time - w.1) hne, ?_, locateL_spec ts (event_time + w.2) hne⟩
  obtain ⟨h1, h2, _⟩ := locateF_spec ts event_time hne
  exact ⟨h1, h2⟩

/-- Witness for C2 at the concrete array `[0, 1, 3]`, event time `2`,
window `(1, 1)`. -/
theorem C2_witness :
    (([0, 1, 3] : List ℚ) ≠ []) ∧
    (((sample [0, 1, 3] 2 (1, 1)).1 < ([0, 1, 3] : List ℚ).length ∧
      (∀ j, j < ([0, 1, 3] : List ℚ).length →
        |([0, 1, 3] : List ℚ).getD (sample [0, 1, 3] 2 (1, 1)).1 0 - ((2 : ℚ) - (1, 1).1)| ≤
          |([0, 1, 3] : List ℚ).getD j 0 - ((2 : ℚ) - (1, 1).1)|) ∧
      (∀ j, j < (sample [0, 1, 3] 2 (1, 1)).1 →
        |([0, 1, 3] : List ℚ).getD (sample [0, 1, 3] 2 (1, 1)).1 0 - ((2 : ℚ) - (1, 1).1)| <
          |([0, 1, 3] : List ℚ).getD j 0 - ((2 : ℚ) - (1, 1).1)|)) ∧
    ((sample [0, 1, 3] 2 (1, 1)).2.1 < ([0, 1, 3] : List ℚ).length ∧
      (∀ j, j < ([0, 1, 3] : List ℚ).length →
        |([0, 1, 3] : List ℚ).getD (sample [0, 1, 3] 2 (1, 1)).2.1 0 - (2 : ℚ)| ≤
          |([0, 1, 3] : List ℚ).getD j 0 - (2 : ℚ)|)) ∧
    ((sample [0, 1, 3] 2 (1, 1)).2.2 < ([0, 1, 3] : List ℚ).length ∧
      (∀ j, j < ([0, 1, 3] : List ℚ).length →
        |([0, 1, 3] : List ℚ).getD (sample [0, 1, 3] 2 (1, 1)).2.2 0 - ((2 : ℚ) + (1, 1).2)| ≤
          |([0, 1, 3] : List ℚ).getD j 0 - ((2 : ℚ) + (1, 1).2)|) ∧
      (∀ j, (sample [0, 1, 3] 2 (1, 1)).2.2 < j → j < ([0, 1, 3] : List ℚ).length →
        |([0, 1, 3] : List ℚ).getD (sample [0, 1, 3] 2 (1, 1)).2.2 0 - ((2 : ℚ) + (1, 1).2)| <
          |([0, 1, 3] : List ℚ).getD j 0 - ((2 : ℚ) + (1, 1).2)|))) :=
  ⟨by decide, C2_sampler_nearest_tiebreak [0, 1, 3] 2 (1, 1) (by decide)⟩

/-- Claim C3: for every strictly increasing non-empty time array and
non-negative window durations, `_sample` returns
`start_idx ≤ event_idx ≤ end_idx`, all valid indices of the array. -/
theorem C3_sample_index_invariants (ts : List ℚ) (event_time : ℚ) (w : ℚ × ℚ)
    (hne : ts ≠ []) (hs : List.Pairwise (· < ·) ts)
    (hw1 : 0 ≤ w.1) (hw2 : 0 ≤ w.2) :
    (sample ts event_time w).1 ≤ (sample ts event_time w).2.1 ∧
    (sample ts event_time w).2.1 ≤ (sample ts event_time w).2.2 ∧
    (sample ts event_time w).1 < ts.length ∧
    (sample ts event_time w).2.1 < ts.length ∧
    (sample ts event_time w).2.2 < ts.length := by
  have e1 : event_time - w.1 ≤ event_time := by linarith
  have e2 : event_time ≤ event_time + w.2 := by linarith
  exact ⟨locateF_mono ts hs hne e1, locateF_le_locateL ts hs hne e2,
    (locateF_spec ts (event_time - w.1) hne).1,
    (locateF_spec ts event_time hne).1,
    (locateL_spec ts (event_time + w.2) hne).1⟩

/-- Witness for C3 at the concrete array `[0, 1, 3]`, event time `2`,
window `(1, 1)`. -/
theorem C3_witness :
    (([0, 1, 3] : List ℚ) ≠ []) ∧ List.Pairwise (· < ·) ([0, 1, 3] : List ℚ) ∧
    (0 : ℚ) ≤ (1, 1).1 ∧ (0 : ℚ) ≤ ((1 : ℚ), (1 : ℚ)).2 ∧
    ((sample [0, 1, 3] 2 (1, 1)).1 ≤ (sample [0, 1, 3] 2 (1, 1)).2.1 ∧
    (sample [0, 1, 3] 2 (1, 1)).2.1 ≤ (sample [0, 1, 3] 2 (1, 1)).2.2 ∧
    (sample [0, 1, 3] 2 (1, 1)).1 < ([0, 1, 3] : List ℚ).length ∧
    (sample [0, 1, 3] 2 (1, 1)).2.1 < ([0, 1, 3] : List ℚ).length ∧
    (sample [0, 1, 3] 2 (1, 1)).2.2 < ([0, 1, 3] : List ℚ).length) :=
  ⟨by decide, by decide, by norm_num, by norm_num,
    C3_sample_index_invariants [0, 1, 3] 2 (1, 1) (by decide) (by decide)
      (by norm_num) (by norm_num)⟩

/-! ### Perievent-analysis theorems -/

/-- Claim C1 is refuted by the code: on the strictly increasing recording
`sessRows` (one sample per second, times 0 to 10) with the event at `t = 2`
and the asymmetric window `(2, 5)`, `_sample` returns
`(start_idx, event_idx, end_idx) = (0, 2, 7)`, so the event offset within
the slice claimed by the spec is `event_idx - start_idx = 2`; but the code
splits every sub-array at `end_idx - event_idx = 5` (analysis.py lines
79-91): the pre-event segment receives 5 samples instead of 2, identically
for the raw and robust z-score representations, and `pre_time` then even
contains times 3 and 4 that lie after the event.  The boundary is shared
by all representations, but it is the wrong one. -/
theorem C1_split_at_wrong_offset :
    sample (sessRows.map (fun r => r.1)) 2 (2, 5) = (0, 2, 7) ∧
    (outRes (analyze_perievent testSession 2 (some (2, 5)) ("F")).1).map
      (fun r => (r.preevent.length, r.postevent.length, r.pre_raw_sig.length,
        r.pre_Rzscores.length, r.pre_time)) =
      some (5, 3, 5, 5, [0, 1, 2, 3, 4]) := by
  constructor
  · norm_num [sample, sessRows, List.range, List.range.loop, locateF, locateL,
      argminAbsF, argminAbsL]
  · norm_num [analyze_perievent, analyzeCore, aucRaises, normResolve, outRes,
      testSession, testFiber, testBehavior, FiberData.findRec, sessRows,
      List.range, List.range.loop, List.filter, sample, locateF, locateL,
      argminAbsF, argminAbsL, pySliceTo, pySliceFrom, Int.toNat_ofNat,
      List.take, List.drop, List.isEmpty]

/-- Claim C4 is refuted by the code: for the unrecognized selector `X` the
call prints the invalid-normalisation message and returns `None` with the
session untouched - the legacy behavior, not a distinguishable
`InvalidNormalization` error value. -/
theorem C4_counterexample :
    analyze_perievent testSession 2 none ("X") =
      (Outcome.printedNone invalidNormMsg, testSession) := rfl

/-- Claim C4 (amended): for every selector other than `default`, `F` and
`Z` - in particular also for `raw`, which the spec lists as recognized -
`analyze_perievent` prints the invalid-normalisation message and returns
`None`, leaving the session unchanged; no distinguishable error value is
raised. -/
theorem C4_amended_print_none (s : RatSession) (event_time : ℚ)
    (window : Option (ℚ × ℚ)) (norm : String)
    (h1 : norm ≠ "default") (h2 : norm ≠ "F") (h3 : norm ≠ "Z") :
    analyze_perievent s event_time window norm =
      (Outcome.printedNone invalidNormMsg, s) := by
  simp [analyze_perievent, normResolve, h1, h2, h3]

/-- Witness for C4 at the selector `raw` on the concrete session. -/
theorem C4_witness :
    (("raw" : String) ≠ "default") ∧ (("raw" : String) ≠ "F") ∧
    (("raw" : String) ≠ "Z") ∧
    analyze_perievent testSession 3 none ("raw") =
      (Outcome.printedNone invalidNormMsg, testSession) :=
  ⟨by decide, by decide, by decide,
    C4_amended_print_none testSession 3 none ("raw") (by decide) (by decide) (by decide)⟩

/-- Claim C5 is refuted by the code: for the timestamp `100`, outside the
single recording time span `[0, 10]` of the concrete session, the call
prints a message and returns `None` with the session untouched - not an
explicit `RecordingNotFound` error value. -/
theorem C5_counterexample :
    analyze_perievent testSession 100 none ("F") =
      (Outcome.printedNone noRecMsg, testSession) := rfl

/-- Claim C5 (amended): whenever the selector is accepted but no recording
contains the event timestamp (`_find_rec` returns an empty list, making
`[0]` raise `IndexError`), `analyze_perievent` prints the
no-recording message and returns `None`, leaving the session unchanged; it
never falls back to a default recording index, but it also raises no
explicit `RecordingNotFound` error value. -/
theorem C5_amended_print_none (s : RatSession) (event_time : ℚ)
    (window : Option (ℚ × ℚ)) (norm r : String)
    (hn : normResolve s norm = some r)
    (hf : s.fiber.findRec event_time = []) :
    analyze_perievent s event_time window norm =
      (Outcome.printedNone noRecMsg, s) := by
  simp [analyze_perievent, hn, hf]

/-- Witness for C5 at timestamp `50` on the concrete session. -/
theorem C5_witness :
    normResolve testSession ("F") = some ("delta F/F") ∧
    testSession.fiber.findRec 50 = [] ∧
    analyze_perievent testSession 50 none ("F") =
      (Outcome.printedNone noRecMsg, testSession) :=
  ⟨rfl, by norm_num [FiberData.findRec, testSession, testFiber, sessRows,
      List.range, List.range.loop, List.filter],
    C5_amended_print_none testSession 50 none ("F") ("delta F/F") rfl
      (by norm_num [FiberData.findRec, testSession, testFiber, sessRows,
        List.range, List.range.loop, List.filter])⟩

/-- Claim C6 is refuted by the code: with the event at `t = 5` and window
`(1, 2)` on the concrete session, the pre-event segment has only 2 samples,
yet the call succeeds and `pre_raw_AUC` is the plain trapezoid value
`(5 - 4) * (8 + 10) / 2 = 9` - scipy's degraded result for two samples -
instead of failing with `InsufficientSamples`. -/
theorem C6_counterexample :
    (outRes (analyze_perievent testSession 5 (some (1, 2)) ("F")).1).map
      (fun r => (r.pre_raw_sig.length, r.pre_raw_AUC, r.pre_time)) =
      some (2, 9, [4, 5]) := by
  norm_num [analyze_perievent, analyzeCore, aucRaises, normResolve, outRes,
    testSession, testFiber, testBehavior, FiberData.findRec, sessRows,
    List.range, List.range.loop, List.filter, sample, locateF, locateL,
    argminAbsF, argminAbsL, pySliceTo, pySliceFrom, Int.toNat_ofNat,
    List.take, List.drop, List.isEmpty, simpson, basicSimpson, List.getD]

/-- Claim C6 (amended): the code performs no sample-count check and defines
no `InsufficientSamples` error.  Once the selector is accepted and a
recording is found, the behavior depends only on whether an AUC segment is
empty: with every segment non-empty the call succeeds and each AUC field is
`integrate.simpson` applied to the corresponding segment - the Simpson
composite rule for at least 3 (odd) points, the plain trapezoid for exactly
2 points, and `0` for a single point, instead of an `InsufficientSamples`
failure; with an empty segment (reachable with an ordinary window, e.g. a
zero post-duration) `integrate.simpson` raises an uncaught `IndexError` at
line 96, so the call crashes - again not an `InsufficientSamples` error -
and the session, in particular the cache, is left unchanged. -/
theorem C6_amended_degraded_auc :
    (∀ (s : RatSession) (event_time : ℚ) (window : Option (ℚ × ℚ))
      (norm r : String) (rn : ℕ) (rest : List ℕ),
      normResolve s norm = some r →
      s.fiber.findRec event_time = rn :: rest →
      aucRaises (analyzeCore s event_time (window.getD s.default_window)
        r norm rn) = false →
      ∃ res, (analyze_perievent s event_time window norm).1 = Outcome.ok res ∧
        res.pre_raw_AUC = simpson res.pre_raw_sig res.pre_time ∧
        res.post_raw_AUC = simpson res.post_raw_sig res.post_time ∧
        res.preAUC = simpson res.preevent res.pre_time ∧
        res.postAUC = simpson res.postevent res.post_time ∧
        res.preRZ_AUC = simpson res.pre_Rzscores res.pre_time ∧
        res.postRZ_AUC = simpson res.post_Rzscores res.post_time) ∧
    (∀ (s : RatSession) (event_time : ℚ) (window : Option (ℚ × ℚ))
      (norm r : String) (rn : ℕ) (rest : List ℕ),
      normResolve s norm = some r →
      s.fiber.findRec event_time = rn :: rest →
      aucRaises (analyzeCore s event_time (window.getD s.default_window)
        r norm rn) = true →
      analyze_perievent s event_time window norm = (Outcome.raised, s)) ∧
    (∀ y0 y1 x0 x1 : ℚ, simpson [y0, y1] [x0, x1] = (x1 - x0) * (y0 + y1) / 2) ∧
    (∀ y x : List ℚ, y.length = 1 → simpson y x = 0) := by
  refine ⟨?_, ?_, ?_, ?_⟩
  · intro s event_time window norm r rn rest hn hf hg
    refine ⟨analyzeCore s event_time (window.getD s.default_window) r norm rn,
      ?_, rfl, rfl, rfl, rfl, rfl, rfl⟩
    simp [analyze_perievent, hn, hf, hg]
  · intro s event_time window norm r rn rest hn hf hg
    simp [analyze_perievent, hn, hf, hg]
  · intro y0 y1 x0 x1
    norm_num [simpson, basicSimpson, List.getD]
    ring
  · intro y x h
    simp [simpson, h]

/-- Witness for C6 on the concrete session: with window `(1, 2)` every
segment is non-empty, the call succeeds and its AUC fields agree with
`simpson` on the segments; with window `(1, 0)` the pre-segment is empty
(`end_idx = event_idx`, split offset 0) and the call aborts with the
uncaught `IndexError`, leaving the session unchanged. -/
theorem C6_witness :
    normResolve testSession ("F") = some ("delta F/F") ∧
    testSession.fiber.findRec 5 = 0 :: [] ∧
    aucRaises (analyzeCore testSession 5 (1, 2) ("delta F/F") ("F") 0) = false ∧
    (∃ res, (analyze_perievent testSession 5 (some (1, 2)) ("F")).1 = Outcome.ok res ∧
      res.pre_raw_AUC = simpson res.pre_raw_sig res.pre_time ∧
      res.post_raw_AUC = simpson res.post_raw_sig res.post_time ∧
      res.preAUC = simpson res.preevent res.pre_time ∧
      res.postAUC = simpson res.postevent res.post_time ∧
      res.preRZ_AUC = simpson res.pre_Rzscores res.pre_time ∧
      res.postRZ_AUC = simpson res.post_Rzscores res.post_time) ∧
    aucRaises (analyzeCore testSession 5 (1, 0) ("delta F/F") ("F") 0) = true ∧
    analyze_perievent testSession 5 (some (1, 0)) ("F") = (Outcome.raised, testSession) :=
  ⟨rfl, by norm_num [FiberData.findRec, testSession, testFiber, sessRows,
      List.range, List.range.loop, List.filter],
    by norm_num [aucRaises, analyzeCore, testSession, testFiber, testBehavior,
      sessRows, List.range, List.range.loop, sample, locateF, locateL,
      argminAbsF, argminAbsL, pySliceTo, pySliceFrom, Int.toNat_ofNat,
      List.take, List.drop, List.isEmpty],
    C6_amended_degraded_auc.1 testSession 5 (some (1, 2)) ("F") ("delta F/F") 0 [] rfl
      (by norm_num [FiberData.findRec, testSession, testFiber, sessRows,
        List.range, List.range.loop, List.filter])
      (by norm_num [aucRaises, analyzeCore, testSession, testFiber, testBehavior,
        sessRows, List.range, List.range.loop, sample, locateF, locateL,
        argminAbsF, argminAbsL, pySliceTo, pySliceFrom, Int.toNat_ofNat,
        List.take, List.drop, List.isEmpty]),
    by norm_num [aucRaises, analyzeCore, testSession, testFiber, testBehavior,
      sessRows, List.range, List.range.loop, sample, locateF, locateL,
      argminAbsF, argminAbsL, pySliceTo, pySliceFrom, Int.toNat_ofNat,
      List.take, List.drop, List.isEmpty],
    C6_amended_degraded_auc.2.1 testSession 5 (some (1, 0)) ("F") ("delta F/F") 0 [] rfl
      (by norm_num [FiberData.findRec, testSession, testFiber, sessRows,
        List.range, List.range.loop, List.filter])
      (by norm_num [aucRaises, analyzeCore, testSession, testFiber, testBehavior,
        sessRows, List.range, List.range.loop, sample, locateF, locateL,
        argminAbsF, argminAbsL, pySliceTo, pySliceFrom, Int.toNat_ofNat,
        List.take, List.drop, List.isEmpty])⟩

/-- Claim C7: a failed `analyze_perievent` call leaves the session - in
particular its analysis cache - exactly as it was: the cache update on
line 104 is only reached on the success path, after every failure return. -/
theorem C7_failure_preserves_cache (s : RatSession) (event_time : ℚ)
    (window : Option (ℚ × ℚ)) (norm : String) (msg : String)
    (h : (analyze_perievent s event_time window norm).1 = Outcome.printedNone msg) :
    (analyze_perievent s event_time window norm).2 = s := by
  cases hn : normResolve s norm with
  | none => simp [analyze_perievent, hn]
  | some r =>
    cases hf : s.fiber.findRec event_time with
    | nil => simp [analyze_perievent, hn, hf]
    | cons a l =>
      exfalso
      cases hb : aucRaises
          (analyzeCore s event_time (window.getD s.default_window) r norm a) with
      | false => simp [analyze_perievent, hn, hf, hb] at h
      | true => simp [analyze_perievent, hn, hf, hb] at h

/-- Witness for C7 at a failing call (bad selector) on the concrete
session. -/
theorem C7_witness :
    (analyze_perievent testSession 4 none ("Q")).1 = Outcome.printedNone invalidNormMsg ∧
    (analyze_perievent testSession 4 none ("Q")).2 = testSession :=
  ⟨rfl, C7_failure_preserves_cache testSession 4 none ("Q") invalidNormMsg rfl⟩

/-! ### Smoothing -/

theorem rollingMean_length (l : List ℚ) (w : ℕ) :
    (rollingMean l w).length = l.length + 1 - w := by
  simp [rollingMean]

/-- Claim C8: with the polynomial (Savitzky-Golay) method, `smooth` pairs
the unchanged time axis with a filtered series of the input's length
(assuming scipy's documented contract that `savgol_filter` preserves
length), so the output has the input's length; with the moving-average
method the output has length `n - w + 1` and its time column is the rolling
mean of the time axis, not a raw slice of it. -/
theorem C8_smooth_lengths :
    (∀ (sg : List ℚ → ℕ → ℕ → List ℚ),
      (∀ d wi p, (sg d wi p).length = d.length) →
      ∀ (time data : List ℚ) (w p : ℕ), time.length = data.length →
      ∃ out, smooth sg time data ("savgol") w p = some out ∧
        out.length = data.length) ∧
    (∀ (sg : List ℚ → ℕ → ℕ → List ℚ) (time data : List ℚ) (w p : ℕ),
      1 ≤ w → w ≤ data.length → time.length = data.length →
      ∃ out, smooth sg time data ("rolling") w p = some out ∧
        out.length = data.length - w + 1 ∧
        out.map Prod.fst = rollingMean time w) := by
  constructor
  · intro sg hsg time data w p hlen
    refine ⟨time.zip (sg data (if w % 2 = 0 then w + 1 else w) p), ?_, ?_⟩
    · simp [smooth]
    · simp [List.length_zip, hsg, hlen]
  · intro sg time data w p hw1 hw2 hlen
    refine ⟨(rollingMean time w).zip (rollingMean data w), ?_, ?_, ?_⟩
    · simp [smooth]
    · simp only [List.length_zip, rollingMean_length, hlen]
      omega
    · apply List.map_fst_zip
      simp [rollingMean_length, hlen]

/-- Witness for C8 with the length-preserving stand-in filter on concrete
four-sample series and window `2`. -/
theorem C8_witness :
    (∀ d wi p, ((fun (d : List ℚ) (_ : ℕ) (_ : ℕ) => d) d wi p).length = d.length) ∧
    (([0, 1, 2, 3] : List ℚ).length = ([5, 6, 7, 8] : List ℚ).length) ∧
    (∃ out, smooth (fun d _ _ => d) [0, 1, 2, 3] [5, 6, 7, 8] ("savgol") 2 3 = some out ∧
      out.length = ([5, 6, 7, 8] : List ℚ).length) ∧
    ((1 : ℕ) ≤ 2 ∧ 2 ≤ ([5, 6, 7, 8] : List ℚ).length) ∧
    (∃ out, smooth (fun d _ _ => d) [0, 1, 2, 3] [5, 6, 7, 8] ("rolling") 2 3 = some out ∧
      out.length = ([5, 6, 7, 8] : List ℚ).length - 2 + 1 ∧
      out.map Prod.fst = rollingMean [0, 1, 2, 3] 2) :=
  ⟨fun _ _ _ => rfl, rfl,
    C8_smooth_lengths.1 (fun d _ _ => d) (fun _ _ _ => rfl) [0, 1, 2, 3] [5, 6, 7, 8] 2 3 rfl,
    ⟨by decide, by decide⟩,
    C8_smooth_lengths.2 (fun d _ _ => d) [0, 1, 2, 3] [5, 6, 7, 8] 2 3 (by decide)
      (by decide) rfl⟩

/-! ### Baseline z-score lemmas -/

theorem sum_map_sub_div {K : Type} [LinearOrderedField K] (l : List K) (c σ : K) :
    (l.map (fun v => (v - c) / σ)).sum = (l.sum - l.length * c) / σ := by
  induction l with
  | nil => simp
  | cons a l ih =>
    simp only [List.map_cons, List.sum_cons, ih, List.length_cons]
    rw [div_add_div_same]
    congr 1
    push_cast
    ring

theorem sum_map_div {K : Type} [LinearOrderedField K] (l : List K) (g : K → K) (c : K) :
    (l.map (fun v => g v / c)).sum = (l.map g).sum / c := by
  induction l with
  | nil => simp
  | cons a l ih =>
    simp only [List.map_cons, List.sum_cons, ih]
    rw [div_add_div_same]

theorem pySliceTo_map {α β : Type} (f : α → β) (l : List α) (i : ℤ) :
    pySliceTo (l.map f) i = (pySliceTo l i).map f := by
  by_cases h : 0 ≤ i <;> simp [pySliceTo, h, List.map_take]

theorem sum_eq_mean_mul_length {K : Type} [LinearOrderedField K] (m : List K) :
    m.sum = mean m * m.length := by
  by_cases h : (m.length : K) = 0
  · have hm : m = [] := by
      cases m with
      | nil => rfl
      | cons a t =>
        simp only [List.length_cons, Nat.cast_add, Nat.cast_one] at h
        exact absurd h (Nat.cast_add_one_ne_zero t.length)
    subst hm
    simp [mean]
  · rw [mean]
    field_simp

/-- Claim C9: when the pre-event segment (`pre = sig[:k]`, the same slice
boundary the code reuses for `pre_zscores = zscores[:k]`) has non-zero
variance, the baseline z-scores of line 86 restricted to that segment have
mean exactly 0 and standard deviation exactly 1: here `σ` is numpy's
`preevent.std()`, characterised exactly by `0 ≤ σ` and
`σ ^ 2 = variance pre` (the square root is irrational in general), and the
final conjunct states that the standard deviation of the pre-segment
z-scores - the non-negative square root of their variance - equals 1. -/
theorem C9_baseline_zscore_normalized {K : Type} [LinearOrderedField K]
    (sig pre : List K) (σ : K) (k : ℤ)
    (hpre : pySliceTo sig k = pre) (hσ0 : 0 ≤ σ) (hσ : σ ^ 2 = variance pre)
    (hv : variance pre ≠ 0) :
    mean (pySliceTo (zscoresWith sig pre σ) k) = 0 ∧
    variance (pySliceTo (zscoresWith sig pre σ) k) = 1 ∧
    (∀ τ : K, 0 ≤ τ →
      τ ^ 2 = variance (pySliceTo (zscoresWith sig pre σ) k) → τ = 1) := by
  have hσne : σ ≠ 0 := by
    intro h0
    rw [h0] at hσ
    exact hv (by simpa using hσ.symm)
  have hne : pre ≠ [] := by
    rintro rfl
    exact hv (by simp [variance, mean])
  have hn0 : (pre.length : K) ≠ 0 :=
    Nat.cast_ne_zero.mpr (by simpa [List.length_eq_zero] using hne)
  have hzpre : pySliceTo (zscoresWith sig pre σ) k =
      pre.map (fun v => (v - mean pre) / σ) := by
    rw [zscoresWith, pySliceTo_map, hpre]
  have hsum0 : pre.sum - (pre.length : K) * mean pre = 0 := by
    rw [mean]
    field_simp
  have hmean : mean (pre.map (fun v => (v - mean pre) / σ)) = 0 := by
    rw [mean, sum_map_sub_div, hsum0, List.length_map]
    simp
  have hvar : variance (pre.map (fun v => (v - mean pre) / σ)) = 1 := by
    rw [variance, hmean]
    simp only [sub_zero, List.map_map]
    have hcomp : ((fun x => x ^ 2) ∘ fun v => (v - mean pre) / σ) =
        fun v => ((v - mean pre) ^ 2) / σ ^ 2 := by
      funext v
      simp [div_pow]
    rw [hcomp, mean, sum_map_div pre (fun v => (v - mean pre) ^ 2) (σ ^ 2),
      List.length_map]
    have hS := sum_eq_mean_mul_length (pre.map (fun v => (v - mean pre) ^ 2))
    rw [List.length_map, ← variance] at hS
    rw [hS, ← hσ]
    field_simp
  refine ⟨by rw [hzpre]; exact hmean, by rw [hzpre]; exact hvar, ?_⟩
  intro τ hτ0 hτ
  rw [hzpre, hvar] at hτ
  have h2 : (τ - 1) * (τ + 1) = 0 := by
    have h1 : τ ^ 2 - 1 = 0 := by rw [hτ]; ring
    calc (τ - 1) * (τ + 1) = τ ^ 2 - 1 := by ring
      _ = 0 := h1
  rcases mul_eq_zero.mp h2 with h | h
  · linarith
  · linarith

/-- Witness for C9 at the signal `[0, 2, 5]` with pre-segment `[0, 2]`
(variance 1, standard deviation 1) and split boundary `k = 2`. -/
theorem C9_witness :
    pySliceTo ([0, 2, 5] : List ℚ) 2 = [0, 2] ∧
    (0 : ℚ) ≤ 1 ∧ (1 : ℚ) ^ 2 = variance ([0, 2] : List ℚ) ∧
    variance ([0, 2] : List ℚ) ≠ 0 ∧
    (mean (pySliceTo (zscoresWith ([0, 2, 5] : List ℚ) [0, 2] 1) 2) = 0 ∧
      variance (pySliceTo (zscoresWith ([0, 2, 5] : List ℚ) [0, 2] 1) 2) = 1 ∧
      (∀ τ : ℚ, 0 ≤ τ →
        τ ^ 2 = variance (pySliceTo (zscoresWith ([0, 2, 5] : List ℚ) [0, 2] 1) 2) →
        τ = 1)) :=
  ⟨by norm_num [pySliceTo, Int.toNat_ofNat, List.take], by norm_num, by norm_num [variance, mean],
    by norm_num [variance, mean],
    C9_baseline_zscore_normalized [0, 2, 5] [0, 2] 1 2 (by norm_num [pySliceTo, Int.toNat_ofNat, List.take])
      (by norm_num) (by norm_num [variance, mean]) (by norm_num [variance, mean])⟩

/-! ### Window update -/

/-- Claim C10: `update_window` changes only the default window and the two
derived mappings recomputed from it; the analysis cache, the behavior and
fiber sources, and every other session field are left unchanged. -/
theorem C10_update_window_frame (s : RatSession) (w : ℚ × ℚ) :
    (update_window s w).rat_ID = s.rat_ID ∧
    (update_window s w).behavior = s.behavior ∧
    (update_window s w).fiber = s.fiber ∧
    (update_window s w).default_norm = s.default_norm ∧
    (update_window s w).analyses = s.analyses ∧
    (update_window s w).default_window = w ∧
    (update_window s w).analyzable_events = s.behavior.eventsFn w ∧
    (update_window s w).recorded_intervals = s.behavior.intervalsFn w :=
  ⟨rfl, rfl, rfl, rfl, rfl, rfl, rfl, rfl⟩

end PF
